import Mathlib

/-!
Shallow embedding of the JustBill medical-bill analysis pipeline
(price comparison, bill-type validation, item sanitization, the
regex fallback parser and the extraction cascade), together with
theorems settling the specification claims about it.

Strings are modelled by Lean strings over lists of characters;
JavaScript numbers by rationals; JS `undefined`/`null` by `Option`.
JS truthiness of numbers (0 is falsy) and of strings ("" is falsy) is
modelled explicitly at each use site.
-/

namespace JustBill

/-! ## Character and string utilities (JS string primitives) -/

/-- JS `a.startsWith(pat)` on character lists. -/
def startsWithCh : List Char → List Char → Bool
  | _, [] => true
  | [], _ :: _ => false
  | c :: l, p :: ps => c == p && startsWithCh l ps

/-- JS `hay.includes(pat)` on character lists: pat occurs as a contiguous
substring of hay. -/
def containsCh : List Char → List Char → Bool
  | [], pat => pat.isEmpty
  | l@(_ :: t), pat => startsWithCh l pat || containsCh t pat

/-- JS `hay.includes(pat)` on strings. -/
def jsIncludes (hay pat : String) : Bool :=
  containsCh hay.toList pat.toList

/-- JS whitespace class used by string trimming and the regexes. -/
def isWs (c : Char) : Bool := c.isWhitespace

/-- JS toLowerCase on a character list. -/
def lowerCh (l : List Char) : List Char := l.map Char.toLower

/-- JS toUpperCase on a character list. -/
def upperCh (l : List Char) : List Char := l.map Char.toUpper

/-- JS trim on a character list: whitespace stripped from both ends. -/
def trimCh (l : List Char) : List Char :=
  ((l.dropWhile isWs).reverse.dropWhile isWs).reverse

/-- s.toLowerCase().trim() as a character list. -/
def lowerTrim (s : String) : List Char := trimCh (lowerCh s.toList)

/-- Case-insensitive string equality (JS a.toLowerCase() === b.toLowerCase()). -/
def lowerEq (a b : String) : Bool := lowerCh a.toList == lowerCh b.toList

/-- JS word character class (regex word boundaries): [A-Za-z0-9_]. -/
def isWordChar (c : Char) : Bool := c.isAlphanum || c == '_'

/-- Drop a literal pattern from the head of a list (case-sensitive);
none when the pattern is not a prefix. -/
def dropLit : List Char → List Char → Option (List Char)
  | l, [] => some l
  | [], _ :: _ => none
  | c :: l, p :: ps => if c == p then dropLit l ps else none

/-- Drop a literal pattern from the head, comparing case-insensitively. -/
def dropLitCI : List Char → List Char → Option (List Char)
  | l, [] => some l
  | [], _ :: _ => none
  | c :: l, p :: ps => if c.toLower == p.toLower then dropLitCI l ps else none

/-- Case-insensitive `startsWith`. -/
def startsWithCI (l : List Char) (pat : List Char) : Bool :=
  (dropLitCI l pat).isSome

/-- Occurrence of the two-part pattern a·\s*·b at the head of the list
(b never begins with whitespace in the patterns modelled here). -/
def gapAt (l : List Char) (a b : List Char) : Bool :=
  match dropLitCI l a with
  | some r => startsWithCI (r.dropWhile isWs) b
  | none => false

/-- JS regex test /a\s*b/i: the two-part pattern occurs anywhere. -/
def containsGap : List Char → List Char → List Char → Bool
  | [], a, b => gapAt [] a b
  | l@(_ :: t), a, b => gapAt l a b || containsGap t a b

/-- Case-insensitive substring test of a string against a pattern that may
contain one \s* gap, written as a pair. -/
def jsIncludesGap (hay : String) (a b : String) : Bool :=
  containsGap hay.toList a.toList b.toList

/-- First character, or the fallback. -/
def headCh : List Char → Char → Char
  | [], d => d
  | c :: _, _ => c

/-- Digits of a leading run interpreted as a natural number
(JS parseInt on a \d+ capture). -/
def digitsToNat (l : List Char) : ℕ :=
  l.foldl (fun a c => a * 10 + (c.toNat - '0'.toNat)) 0

/-! ## price-compare.ts -/

/-- Item shape produced by every extraction tier (parser.ts
ParsedBillItem); optional numeric fields model TS optional fields. -/
structure ParsedBillItem where
  rawText : String
  itemName : String
  category : String
  quantity : ℚ
  unit : Option String := none
  mrp : Option ℚ := none
  unitPrice : Option ℚ := none
  discount : Option ℚ := none
  totalBilled : ℚ
deriving DecidableEq, Repr

/-- Government price catalog entry (price-compare.ts GovtPriceEntry);
publishedDate modelled as an opaque integer timestamp. -/
structure GovtPriceEntry where
  id : ℕ
  categoryId : ℕ
  categoryName : String
  itemName : String
  itemCode : Option String := none
  ceilingPrice : ℚ
  unit : Option String := none
  source : String
  publishedDate : ℤ
deriving DecidableEq, Repr

/-- The closed status variant of a comparison result. -/
inductive CompareStatus where
  | fair
  | overcharged
  | suspicious
  | not_found
deriving DecidableEq, Repr

/-- price-compare.ts PriceComparisonResult. The dynamic parts of the
human-readable notes (toFixed number rendering) are abstracted: notes
keeps only the fixed text of each branch. -/
structure PriceComparisonResult where
  itemName : String
  category : String
  quantity : ℚ
  unitPrice : ℚ
  totalBilled : ℚ
  govtCeilingPrice : Option ℚ
  overchargeAmount : ℚ
  status : CompareStatus
  priceSource : Option String
  sourceDate : Option ℤ
  notes : Option String
deriving DecidableEq, Repr

/-- fuzzyScore (price-compare.ts): exact match, containment match, then
word-containment match; 0 when the query has no words longer than 2. -/
def fuzzyScore (query target : String) : ℚ :=
  let q := lowerTrim query
  let t := lowerTrim target
  if q = t then 1
  else if containsCh t q || containsCh q t then
    (min q.length t.length : ℚ) / (max q.length t.length : ℚ)
  else
    let qWords := (q.splitOnP isWs).filter (fun w => 2 < w.length)
    let tWords := (t.splitOnP isWs).filter (fun w => 2 < w.length)
    let matchedWords :=
      (qWords.filter (fun qw => tWords.any (fun tw =>
        containsCh tw qw || containsCh qw tw))).length
    if qWords.length = 0 then 0
    else (matchedWords : ℚ) / (qWords.length : ℚ)

/-- Boosted score of a catalog entry against an item: fuzzy score plus the
0.1 category boost of findBestMatch. -/
def entryScore (item : ParsedBillItem) (entry : GovtPriceEntry) : ℚ :=
  fuzzyScore item.itemName entry.itemName +
    (if lowerEq entry.categoryName item.category then 1/10 else 0)

/-- One loop iteration of findBestMatch: update the running best when the
boosted score is strictly better and at or above the 0.4 threshold. -/
def fbmStep (item : ParsedBillItem) (s : Option GovtPriceEntry × ℚ)
    (entry : GovtPriceEntry) : Option GovtPriceEntry × ℚ :=
  let totalScore := entryScore item entry
  if s.2 < totalScore ∧ 2/5 ≤ totalScore then (some entry, totalScore) else s

/-- The category-restricted subset searched by the first pass. -/
def categoryFiltered (item : ParsedBillItem) (db : List GovtPriceEntry) :
    List GovtPriceEntry :=
  db.filter (fun p => lowerEq p.categoryName item.category)

/-- findBestMatch including its running score: first pass over the
category-filtered entries, early exit when a match scored above 0.7, else
a second pass over the whole database continuing from the same state. -/
def findBestMatchAux (item : ParsedBillItem) (db : List GovtPriceEntry) :
    Option GovtPriceEntry × ℚ :=
  let s1 := (categoryFiltered item db).foldl (fbmStep item) (none, 0)
  if s1.1.isSome ∧ 7/10 < s1.2 then s1
  else db.foldl (fbmStep item) s1

/-- findBestMatch (price-compare.ts). -/
def findBestMatch (item : ParsedBillItem) (db : List GovtPriceEntry) :
    Option GovtPriceEntry :=
  (findBestMatchAux item db).1

/-- The best boosted score a single pass over the whole unrestricted
catalog records (subject to the same 0.4 threshold). -/
def bestGlobalScore (item : ParsedBillItem) (db : List GovtPriceEntry) : ℚ :=
  (db.foldl (fbmStep item) (none, 0)).2

/-- item.unitPrice || item.totalBilled / item.quantity (JS: undefined and
0 both fall back to the quotient). -/
def chargedUnitPrice (item : ParsedBillItem) : ℚ :=
  match item.unitPrice with
  | some p => if p = 0 then item.totalBilled / item.quantity else p
  | none => item.totalBilled / item.quantity

/-- The body of comparePrices for one item. -/
def comparePricesItem (item : ParsedBillItem) (db : List GovtPriceEntry) :
    PriceComparisonResult :=
  match findBestMatch item db with
  | none =>
    { itemName := item.itemName
      category := item.category
      quantity := item.quantity
      unitPrice := chargedUnitPrice item
      totalBilled := item.totalBilled
      govtCeilingPrice := none
      overchargeAmount := 0
      status := .not_found
      priceSource := none
      sourceDate := none
      notes := some "No government reference price found for this item" }
  | some m =>
    let unitPriceCharged := chargedUnitPrice item
    let ceilingPrice := m.ceilingPrice
    let overchargePerUnit := unitPriceCharged - ceilingPrice
    let overchargeTotal := overchargePerUnit * item.quantity
    let branch : CompareStatus × ℚ × String :=
      if overchargePerUnit ≤ 0 then
        (.fair, 0, "Price is at or below government ceiling")
      else if 1 < overchargePerUnit / ceilingPrice then
        (.suspicious, overchargeTotal, "Charged above ceiling price")
      else
        (.overcharged, overchargeTotal, "Charged above ceiling per unit")
    { itemName := item.itemName
      category := item.category
      quantity := item.quantity
      unitPrice := unitPriceCharged
      totalBilled := item.totalBilled
      govtCeilingPrice := some ceilingPrice
      overchargeAmount := max 0 branch.2.1
      status := branch.1
      priceSource := some (m.source ++ " (" ++
        (match m.itemCode with
         | some c => if c = "" then "N/A" else c
         | none => "N/A") ++ ")")
      sourceDate := some m.publishedDate
      notes := some branch.2.2 }

/-- comparePrices (price-compare.ts): map each item to its result. -/
def comparePrices (items : List ParsedBillItem) (db : List GovtPriceEntry) :
    List PriceComparisonResult :=
  items.map (fun item => comparePricesItem item db)

/-- calculateSummary result record. -/
structure AnalysisSummary where
  totalBilled : ℚ
  totalFairPrice : ℚ
  totalOvercharge : ℚ
  overchargedCount : ℕ
  fairCount : ℕ
  notFoundCount : ℕ
  itemCount : ℕ
  savingsPercent : ℚ
deriving DecidableEq, Repr

/-- calculateSummary (price-compare.ts). A result whose govtCeilingPrice
is null or 0 (JS falsy) contributes its totalBilled to the fair total. -/
def calculateSummary (results : List PriceComparisonResult) : AnalysisSummary :=
  let totalBilled := results.foldl (fun s r => s + r.totalBilled) 0
  let totalOvercharge := results.foldl (fun s r => s + r.overchargeAmount) 0
  let totalFairPrice := results.foldl (fun s r =>
    match r.govtCeilingPrice with
    | some c => if c = 0 then s + r.totalBilled else s + c * r.quantity
    | none => s + r.totalBilled) 0
  { totalBilled := totalBilled
    totalFairPrice := totalFairPrice
    totalOvercharge := totalOvercharge
    overchargedCount := (results.filter (fun r =>
      r.status == .overcharged || r.status == .suspicious)).length
    fairCount := (results.filter (fun r => r.status == .fair)).length
    notFoundCount := (results.filter (fun r => r.status == .not_found)).length
    itemCount := results.length
    savingsPercent :=
      if 0 < totalBilled then totalOvercharge / totalBilled * 100 else 0 }

/-! ## Concrete inputs used by the claim theorems about price comparison -/

def c1Item : ParsedBillItem :=
  { rawText := "", itemName := "cbc", category := "Test", quantity := 2,
    unitPrice := some 150, totalBilled := 300 }

def c1Entry : GovtPriceEntry :=
  { id := 1, categoryId := 1, categoryName := "Test", itemName := "cbc",
    ceilingPrice := 100, source := "CGHS", publishedDate := 0 }

def c2Item : ParsedBillItem :=
  { rawText := "", itemName := "abcd", category := "test", quantity := 1,
    unitPrice := some 1, totalBilled := 1 }

def c2SameCat : GovtPriceEntry :=
  { id := 1, categoryId := 1, categoryName := "test", itemName := "abcdef",
    ceilingPrice := 1, source := "s", publishedDate := 0 }

def c2CrossCat : GovtPriceEntry :=
  { id := 2, categoryId := 2, categoryName := "medicine", itemName := "abcd",
    ceilingPrice := 1, source := "s", publishedDate := 0 }

def c2Db : List GovtPriceEntry := [c2SameCat, c2CrossCat]

def c2wItem : ParsedBillItem :=
  { rawText := "", itemName := "abcd", category := "test", quantity := 1,
    unitPrice := some 1, totalBilled := 1 }

def c2wEntry : GovtPriceEntry :=
  { id := 1, categoryId := 1, categoryName := "test", itemName := "abcd extra",
    ceilingPrice := 1, source := "s", publishedDate := 0 }

/-- State invariant of the fold: a none state carries score 0, and a some
state carries exactly the boosted score of its entry. -/
def FbmInv (item : ParsedBillItem) (s : Option GovtPriceEntry × ℚ) : Prop :=
  (s.1 = none → s.2 = 0) ∧ ∀ e, s.1 = some e → s.2 = entryScore item e


/-! ## validator.ts -/

/-- Keywords strongly indicating a medical bill (validator.ts). -/
def MEDICAL_KEYWORDS : List String :=
  ["hospital", "clinic", "medical", "healthcare", "health centre",
   "nursing home", "diagnostic", "pathology", "laboratory", "lab report",
   "patient", "admission", "discharge", "opd", "ipd", "inpatient",
   "outpatient", "prescription", "diagnosis", "treatment", "consultation",
   "bill", "invoice", "receipt", "charges", "pharmacy", "medicine", "drug",
   "doctor", "dr.", "physician", "surgeon", "specialist", "nursing",
   "ward", "icu", "ot", "operation theatre", "emergency",
   "x-ray", "xray", "mri", "ct scan", "ultrasound", "usg", "ecg", "ekg",
   "blood test", "urine test", "biopsy", "cbc", "hemoglobin",
   "tablet", "capsule", "injection", "syrup", "mg", "ml", "saline", "iv",
   "uhid", "mr no", "reg no", "registration", "nabh", "nabl"]

/-- Keywords that suggest the document is not a medical bill. -/
def NON_MEDICAL_KEYWORDS : List String :=
  ["grocery", "supermarket", "mart", "store", "retail", "shopping",
   "burger", "pizza", "coffee", "restaurant", "food", "beverage",
   "electricity", "water bill", "gas bill", "internet", "mobile",
   "telecom", "broadband", "dth", "cable",
   "petrol", "diesel", "fuel", "airline", "flight", "railway",
   "bus ticket", "uber", "ola", "cab", "taxi",
   "bank statement", "credit card", "loan", "emi", "insurance premium",
   "amazon", "flipkart", "myntra", "order id", "tracking", "delivery",
   "rent", "maintenance", "repair", "plumber", "electrician"]

/-- validator.ts ValidationResult. -/
structure ValidationResult where
  isMedicalBill : Bool
  confidence : ℕ
  detectedKeywords : List String
  reason : Option String
deriving DecidableEq, Repr

/-- Match of the rupee-amount alternative of the amount regex at the head
of the list. -/
def rupeeAmountAt : List Char → Bool
  | c :: rest => c == '₹' && (headCh (rest.dropWhile isWs) 'x').isDigit
  | [] => false

/-- Match of the rs-amount alternative with its leading word boundary. -/
def rsAmountAt (prevIsWord : Bool) (l : List Char) : Bool :=
  if prevIsWord then
    false
  else
    match l with
    | c1 :: c2 :: rest =>
      c1.toLower == 'r' && c2.toLower == 's' &&
        (let r := match rest with
          | '.' :: r2 => r2
          | _ => rest
         (headCh (r.dropWhile isWs) 'x').isDigit)
    | _ => false

/-- Match of the decimal-amount alternative (a digit, a dot, two digits). -/
def decimalAmountAt : List Char → Bool
  | a :: '.' :: b :: c :: _ => a.isDigit && b.isDigit && c.isDigit
  | _ => false

/-- Scan for any alternative of the amount regex, tracking whether the
previous character was a word character (for the rs word boundary). -/
def hasAmountScan : Bool → List Char → Bool
  | _, [] => false
  | prevIsWord, l@(c :: rest) =>
    rupeeAmountAt l || rsAmountAt prevIsWord l || decimalAmountAt l ||
      hasAmountScan (isWordChar c) rest

/-- validator.ts amount-pattern test used when no keyword hits exist. -/
def hasAmountPattern (s : String) : Bool := hasAmountScan false s.toList

/-- Medical keywords detected as lowercase substrings of the OCR text. -/
def detectedMedicalIn (ocrText : String) : List String :=
  MEDICAL_KEYWORDS.filter (fun k => containsCh (lowerCh ocrText.toList) k.toList)

/-- Non-medical keywords detected as lowercase substrings of the OCR text. -/
def detectedNonMedicalIn (ocrText : String) : List String :=
  NON_MEDICAL_KEYWORDS.filter (fun k =>
    containsCh (lowerCh ocrText.toList) k.toList)

/-- validateMedicalBill (validator.ts): non-medical hits are weighted
double, then the decision table is evaluated in order. -/
def validateMedicalBill (ocrText : String) : ValidationResult :=
  let detectedMedical := detectedMedicalIn ocrText
  let detectedNonMedical := detectedNonMedicalIn ocrText
  let medicalScore := detectedMedical.length
  let nonMedicalScore := detectedNonMedical.length * 2
  if medicalScore = 0 ∧ nonMedicalScore = 0 then
    if hasAmountPattern ocrText then
      { isMedicalBill := false, confidence := 30,
        detectedKeywords := detectedMedical,
        reason := some "Could not identify this as a medical bill. No medical-related terms found." }
    else
      { isMedicalBill := false, confidence := 10,
        detectedKeywords := detectedMedical,
        reason := some "Unable to recognize document type. Please upload a clear hospital bill." }
  else if 3 ≤ medicalScore ∧ nonMedicalScore ≤ 1 then
    { isMedicalBill := true, confidence := min 95 (50 + medicalScore * 5),
      detectedKeywords := detectedMedical, reason := none }
  else if 1 ≤ medicalScore ∧ nonMedicalScore = 0 then
    { isMedicalBill := true, confidence := min 80 (40 + medicalScore * 10),
      detectedKeywords := detectedMedical, reason := none }
  else if medicalScore < nonMedicalScore then
    { isMedicalBill := false,
      confidence := min 90 (50 + nonMedicalScore * 10),
      detectedKeywords := detectedMedical,
      reason := some ("This appears to be a " ++ detectedNonMedical.headD "" ++
        " receipt, not a medical bill.") }
  else if 2 ≤ medicalScore then
    { isMedicalBill := true, confidence := 50,
      detectedKeywords := detectedMedical, reason := none }
  else
    { isMedicalBill := false, confidence := 50,
      detectedKeywords := detectedMedical,
      reason := some "Unable to confirm this is a medical bill." }

/-! ## Generic positional regex scanning -/

/-- Any suffix of the list satisfies the positional matcher. -/
def scanAny (p : List Char → Bool) : List Char → Bool
  | [] => p []
  | l@(_ :: t) => p l || scanAny p t

/-- A fixed-length character-class pattern matches at the head. -/
def matchClasses : List Char → List (Char → Bool) → Bool
  | _, [] => true
  | [], _ :: _ => false
  | c :: t, p :: ps => p c && matchClasses t ps

/-- Exactly n digits at the head; the remainder on success. -/
def dropDigits (n : ℕ) (l : List Char) : Option (List Char) :=
  if (l.take n).length = n && (l.take n).all Char.isDigit then
    some (l.drop n)
  else
    none

/-- Strict ASCII uppercase class [A-Z]. -/
def isUpperAZ (c : Char) : Bool := 'A' ≤ c && c ≤ 'Z'

/-! ## ai-parser.ts (Gemini tiers): validateAndFixBill -/

/-- Item of the Gemini JSON schema after field fixing. -/
structure AIExtractedBillItem where
  itemName : String
  category : String
  quantity : ℚ
  unit : Option String := none
  mrp : Option ℚ := none
  unitPrice : ℚ
  discount : Option ℚ := none
  totalBilled : ℚ
deriving DecidableEq, Repr

/-- Raw Gemini item as parsed from model JSON: every field may be absent. -/
structure RawAIItem where
  itemName : Option String := none
  category : Option String := none
  quantity : Option ℚ := none
  unit : Option String := none
  mrp : Option ℚ := none
  unitPrice : Option ℚ := none
  discount : Option ℚ := none
  totalBilled : Option ℚ := none
deriving DecidableEq, Repr

/-- Raw Gemini bill as parsed from model JSON. -/
structure RawAIBill where
  hospitalName : Option String := none
  billDate : Option String := none
  billNumber : Option String := none
  gstin : Option String := none
  items : Option (List RawAIItem) := none
  subtotal : Option ℚ := none
  cgst : Option ℚ := none
  sgst : Option ℚ := none
  totalAmount : Option ℚ := none
  isMedicalBill : Option Bool := none
  confidence : Option ℕ := none
deriving DecidableEq, Repr

/-- Gemini bill after validateAndFixBill. -/
structure AIExtractedBill where
  hospitalName : String
  billDate : String
  billNumber : Option String := none
  gstin : Option String := none
  items : List AIExtractedBillItem
  subtotal : Option ℚ := none
  cgst : Option ℚ := none
  sgst : Option ℚ := none
  totalAmount : ℚ
  isMedicalBill : Bool
  confidence : ℕ
deriving DecidableEq, Repr

/-- JS `v || d` for an optional string (undefined and "" are falsy). -/
def orElseS (v : Option String) (d : String) : String :=
  match v with
  | some s => if s = "" then d else s
  | none => d

/-- JS `v || d` for an optional number (undefined and 0 are falsy). -/
def orElseN (v : Option ℚ) (d : ℚ) : ℚ :=
  match v with
  | some q => if q = 0 then d else q
  | none => d

/-- The item-fixing map of validateAndFixBill. -/
def fixAIItem (it : RawAIItem) : AIExtractedBillItem :=
  { itemName := orElseS it.itemName "Unknown Item"
    category := orElseS it.category "Other"
    quantity := orElseN it.quantity 1
    unitPrice := orElseN it.unitPrice (orElseN it.totalBilled 0)
    totalBilled := orElseN it.totalBilled (orElseN it.unitPrice 0)
    mrp := it.mrp
    unit := it.unit
    discount := it.discount }

/-- Metadata keywords of the Gemini item filter. -/
def geminiMetadataKeywords : List String :=
  ["invoice", "bill no", "bill number", "receipt",
   "gst", "gstin", "tax id", "pan",
   "phone", "mobile", "tel", "contact",
   "email", "website", "www",
   "address", "street", "city", "pincode", "pin code",
   "patient id", "patient no", "uhid",
   "subtotal", "sub-total", "sub total",
   "grand total", "net amount", "balance",
   "amount paid", "paid by", "payment mode",
   "cash", "card", "upi", "online",
   "cgst", "sgst", "igst", "tax amount",
   "discount total", "total discount",
   "signature", "authorized", "terms",
   "thank you", "visit again"]

/-- Character class of /^[\d\s\-\(\)]+$/ (names that are just numbers). -/
def isNumsTightClass (c : Char) : Bool :=
  c.isDigit || isWs c || c == '-' || c == '(' || c == ')'

/-- /^[\d\s\-\(\)]+$/ test. -/
def isJustNumbersTight (l : List Char) : Bool :=
  !l.isEmpty && l.all isNumsTightClass

/-- Ten consecutive digits at the head (\d{10}). -/
def tenDigitsAt (l : List Char) : Bool := (dropDigits 10 l).isSome

/-- \d{3}[-\s]?\d{3}[-\s]?\d{4} at the head, with both separator options. -/
def phoneShapeAt (l : List Char) : Bool :=
  match dropDigits 3 l with
  | none => false
  | some r1 =>
    let r1s := r1 :: (match r1 with
      | c :: t => if c == '-' || isWs c then [t] else []
      | [] => [])
    r1s.any (fun a =>
      match dropDigits 3 a with
      | none => false
      | some r2 =>
        let r2s := r2 :: (match r2 with
          | c :: t => if c == '-' || isWs c then [t] else []
          | [] => [])
        r2s.any (fun b => (dropDigits 4 b).isSome))

/-- /\d{10}/ or /\d{3}[-\s]?\d{3}[-\s]?\d{4}/ anywhere in the name. -/
def hasPhoneShape (l : List Char) : Bool :=
  scanAny tenDigitsAt l || scanAny phoneShapeAt l

/-- The 14-character-class GST shape of the Gemini filter:
\d{2}[A-Z]{5}\d{4}[A-Z]\d[A-Z\d]. -/
def gstShapeClasses : List (Char → Bool) :=
  [Char.isDigit, Char.isDigit] ++ List.replicate 5 isUpperAZ ++
    List.replicate 4 Char.isDigit ++
    [isUpperAZ, Char.isDigit, fun c => isUpperAZ c || c.isDigit]

/-- GST-identifier test applied to the uppercased name. -/
def hasGstShape (l : List Char) : Bool :=
  scanAny (fun t => matchClasses t gstShapeClasses) l

/-- The item filter of validateAndFixBill (true keeps the item). -/
def geminiKeepItem (item : AIExtractedBillItem) : Bool :=
  let name := trimCh (lowerCh item.itemName.toList)
  if name.length < 3 then false
  else if geminiMetadataKeywords.any (fun k => containsCh name k.toList) then
    false
  else if isJustNumbersTight name then false
  else if hasPhoneShape name then false
  else if hasGstShape (upperCh name) then false
  else if 100000 < item.unitPrice then false
  else if item.unitPrice ≤ 0 && !(containsCh name "discount".toList) then false
  else true

/-- validateAndFixBill (ai-parser.ts), parameterized by the current date
string the code would obtain from the system clock. -/
def validateAndFixBill (todayISO : String) (parsed : RawAIBill) :
    AIExtractedBill :=
  let rawItems := parsed.items.getD []
  { hospitalName := orElseS parsed.hospitalName "Unknown Hospital"
    billDate := orElseS parsed.billDate todayISO
    billNumber := parsed.billNumber
    gstin := parsed.gstin
    subtotal := parsed.subtotal
    cgst := parsed.cgst
    sgst := parsed.sgst
    totalAmount := match parsed.totalAmount with
      | some t => t
      | none => rawItems.foldl (fun s it => s + it.totalBilled.getD 0) 0
    isMedicalBill := parsed.isMedicalBill.getD true
    confidence := parsed.confidence.getD 85
    items := (rawItems.map fixAIItem).filter geminiKeepItem }

/-! ## mindee-parser.ts: isGarbageItem, isMedicalItem, cleanParsedItems -/

namespace Mindee

/-- Words that indicate a line is not a medical item (mindee-parser.ts). -/
def GARBAGE_KEYWORDS : List String :=
  ["invoice", "bill no", "receipt", "voucher", "ref no", "reference",
   "date", "time", "dated",
   "contact", "phone", "mobile", "tel", "fax", "email", "website", "www",
   "gstin", "gst no", "pan", "tin", "cin", "registration",
   "address", "city", "state", "pincode", "zip", "country",
   "total", "subtotal", "grand total", "net amount", "gross",
   "tax", "cgst", "sgst", "igst", "vat", "cess",
   "discount", "rebate", "adjustment",
   "payment", "paid", "balance", "due", "cash", "card", "upi",
   "page", "sr no", "sl no", "serial", "particulars", "description",
   "qty", "quantity", "rate", "amount", "price", "unit",
   "hospital", "clinic", "nursing", "healthcare", "medical centre",
   "patient", "doctor", "dr.", "admission", "discharge",
   "uhid", "ipd", "opd", "mrn", "patient id",
   "thank you", "terms", "condition", "signature", "authorized"]

/-- Words that indicate a real medical item (mindee-parser.ts). -/
def MEDICAL_KEYWORDS : List String :=
  ["tablet", "tab", "capsule", "cap", "syrup", "suspension",
   "injection", "inj", "ointment", "cream", "gel", "drops",
   "inhaler", "spray", "powder", "sachet", "patch",
   "test", "blood", "urine", "x-ray", "xray", "scan", "mri", "ct scan",
   "ultrasound", "usg", "ecg", "ekg", "echo", "pathology",
   "hemoglobin", "glucose", "lipid", "thyroid", "liver", "kidney",
   "dressing", "bandage", "suture", "catheter", "cannula",
   "oxygen", "nebulization", "physiotherapy",
   "room charge", "bed charge", "icu", "ward", "private room",
   "nursing charge", "diet", "consultation"]

/-- Plain-substring medicine name patterns (all case-insensitive). -/
def MEDICINE_SUBSTRINGS : List String :=
  ["paracetamol", "amoxicillin", "azithromycin", "ciprofloxacin",
   "metformin", "omeprazole", "pantoprazole", "ranitidine",
   "atorvastatin", "aspirin", "ibuprofen", "diclofenac",
   "cefixime", "ofloxacin", "levofloxacin", "doxycycline",
   "metronidazole", "fluconazole", "acyclovir",
   "amlodipine", "atenolol", "losartan", "telmisartan",
   "insulin", "glimepiride", "sitagliptin",
   "cetirizine", "loratadine", "montelukast",
   "prednisolone", "dexamethasone", "hydrocortisone",
   "salbutamol", "budesonide", "formoterol",
   "multivitamin", "vitamin", "calcium", "iron", "folic",
   "saline", "dextrose", "ringer",
   "crocin", "dolo", "combiflam", "vicks", "zifi", "monocef",
   "pantocid", "rantac", "gelusil"]

/-- MEDICINE_PATTERNS test on a lowercased name: the plain substrings plus
the one gapped pattern /pan\s*d/i. -/
def medicinePatternHit (lowerName : List Char) : Bool :=
  MEDICINE_SUBSTRINGS.any (fun p => containsCh lowerName p.toList) ||
    containsGap lowerName "pan".toList "d".toList

/-- Clearly-medical check of the high-price garbage rule. -/
def clearlyMedical (lowerName : List Char) : Bool :=
  MEDICAL_KEYWORDS.any (fun k => containsCh lowerName k.toList) ||
    medicinePatternHit lowerName

/-- Character class of /^[\d\s\-\.\,\(\)]+$/. -/
def isNumsWideClass (c : Char) : Bool :=
  c.isDigit || isWs c || c == '-' || c == '.' || c == ',' ||
    c == '(' || c == ')'

/-- Purely numeric name test of isGarbageItem. -/
def isJustNumbersWide (l : List Char) : Bool :=
  !l.isEmpty && l.all isNumsWideClass

/-- Dosage indicator /\d+\s*(units...)/i at the head of the list. -/
def dosageAt (units : List String) (l : List Char) : Bool :=
  let ds := l.takeWhile Char.isDigit
  !ds.isEmpty &&
    (let r := (l.dropWhile Char.isDigit).dropWhile isWs
     units.any (fun u => startsWithCI r u.toList))

/-- Dosage indicator anywhere in the name. -/
def hasDosage (units : List String) (l : List Char) : Bool :=
  scanAny (dosageAt units) l

/-- isGarbageItem (mindee-parser.ts); price is the item's totalBilled. -/
def isGarbageItem (name : String) (price totalBillAmount : ℚ) : Bool :=
  let lowerName := trimCh (lowerCh name.toList)
  if lowerName.length < 3 then true
  else if GARBAGE_KEYWORDS.any (fun k => containsCh lowerName k.toList) then
    true
  else if 0 < price ∧ |price - totalBillAmount| < 10 then true
  else if 100000 < price ∧ clearlyMedical lowerName = false then true
  else if isJustNumbersWide name.toList then true
  else if lowerName.length ≤ 4 ∧
      ¬(["mg", "ml", "mcg", "iu"].any (fun u =>
        containsCh lowerName u.toList) = true) then
    !(MEDICAL_KEYWORDS.any (fun k => containsCh lowerName k.toList))
  else false

/-- isMedicalItem (mindee-parser.ts). -/
def isMedicalItem (name : String) : Bool :=
  let lowerName := lowerCh name.toList
  hasDosage ["mg", "ml", "mcg", "iu", "gm", "kg"] lowerName ||
    MEDICAL_KEYWORDS.any (fun k => containsCh lowerName k.toList) ||
    medicinePatternHit lowerName

/-- categorizeItem (mindee-parser.ts). -/
def categorizeItem (name : String) : String :=
  let lowerName := lowerCh name.toList
  if (["tablet", "tab", "capsule", "cap", "syrup", "injection", "inj",
      "ointment", "cream", "drops"].any (fun k =>
        containsCh lowerName k.toList)) ||
      hasDosage ["mg", "ml", "mcg"] lowerName ||
      medicinePatternHit lowerName then "Medicine"
  else if ["test", "blood", "x-ray", "xray", "scan", "mri", "ct",
      "ultrasound", "usg", "ecg", "pathology", "hemoglobin",
      "glucose"].any (fun k => containsCh lowerName k.toList) then "Test"
  else if ["room", "bed", "icu", "ward", "private"].any (fun k =>
      containsCh lowerName k.toList) then "Room"
  else if ["consultation", "consult", "doctor", "physician",
      "visit"].any (fun k => containsCh lowerName k.toList) then
    "Consultation"
  else if ["nursing", "nurse", "care"].any (fun k =>
      containsCh lowerName k.toList) then "Nursing"
  else if ["dressing", "bandage", "syringe", "glove", "mask", "gauze",
      "cotton"].any (fun k => containsCh lowerName k.toList) then
    "Consumable"
  else "Other"

/-- cleanParsedItems (mindee-parser.ts): drop garbage, drop expensive
non-medical-looking items, then re-categorize. -/
def cleanParsedItems (items : List ParsedBillItem) (totalBillAmount : ℚ) :
    List ParsedBillItem :=
  (items.filter (fun item =>
    !(isGarbageItem item.itemName item.totalBilled totalBillAmount) &&
      (isMedicalItem item.itemName || item.totalBilled ≤ 50000))).map
    (fun item => { item with category := categorizeItem item.itemName })

end Mindee

/-! ## parser.ts: the regex fallback parser -/

/-- Date as JS new Date(year, monthIndex, day) is constructed (without
calendar normalization, which no claim consumes). -/
structure JsDate where
  year : ℤ
  monthIndex : ℤ
  day : ℤ
deriving DecidableEq, Repr

/-- parser.ts ParsedBill. -/
structure ParsedBill where
  hospitalName : Option String := none
  hospitalAddress : Option String := none
  gstin : Option String := none
  patientName : Option String := none
  patientId : Option String := none
  billDate : Option JsDate := none
  billNumber : Option String := none
  admissionDate : Option JsDate := none
  dischargeDate : Option JsDate := none
  items : List ParsedBillItem := []
  grossTotal : Option ℚ := none
  discount : Option ℚ := none
  cgst : Option ℚ := none
  sgst : Option ℚ := none
  netPayable : Option ℚ := none
deriving DecidableEq, Repr

/-- Category keyword table of parser.ts, in source order. -/
def CATEGORY_KEYWORDS : List (String × List String) :=
  [("Medicine", ["pharmacy", "medicine", "drug", "tablet", "tab", "capsule",
    "cap", "injection", "inj", "syrup", "drops", "ointment", "gel", "cream",
    "saline", "dextrose", "ringer", "paracetamol", "amoxicillin",
    "omeprazole"]),
   ("Test", ["laboratory", "lab", "test", "investigation", "pathology",
    "radiology", "x-ray", "xray", "ct scan", "mri", "ultrasound", "usg",
    "echo", "ecg", "ekg", "blood", "cbc", "lipid", "liver", "kidney",
    "thyroid"]),
   ("Room", ["room", "bed", "ward", "icu", "nicu", "picu", "general ward",
    "semi-private", "private", "deluxe", "suite"]),
   ("Consultation", ["consultation", "consult", "visit", "opd",
    "doctor fee", "physician", "specialist"]),
   ("Nursing", ["nursing", "nurse", "attendant"]),
   ("Surgery", ["surgery", "operation", "ot charges", "theatre",
    "anesthesia", "anaesthesia", "procedure"]),
   ("Consumable", ["consumable", "disposable", "syringe", "cannula",
    "catheter", "gloves", "mask", "gown", "cotton", "bandage", "dressing",
    "iv cannula"]),
   ("Equipment", ["equipment", "ventilator", "monitor", "oxygen",
    "nebulizer"])]

/-- detectCategory (parser.ts): first category with a keyword hit. -/
def detectCategory (lowerText : List Char) : Option String :=
  (CATEGORY_KEYWORDS.find? (fun p => p.2.any (fun k =>
    containsCh lowerText k.toList))).map (fun p => p.1)

/-- Section header names recognized by isCategoryHeader. -/
def headerNames : List String :=
  ["pharmacy", "laboratory", "room charges", "consultation", "nursing",
   "consumables", "equipment", "medicines"]

/-- isCategoryHeader (parser.ts): a known header word and no d.dd amount. -/
def isCategoryHeader (lowerText : List Char) : Bool :=
  headerNames.any (fun h => containsCh lowerText h.toList) &&
    !(scanAny decimalAmountAt lowerText)

/-- First-match scan of a positional matcher over all suffixes. -/
def scanFirst {α : Type} (p : List Char → Option α) : List Char → Option α
  | [] => p []
  | l@(_ :: t) =>
    match p l with
    | some v => some v
    | none => scanFirst p t

/-- Anchored (^) skip keywords of parseLineItem, lowercase. -/
def anchoredSkips : List String :=
  ["total", "net", "gross", "discount", "cgst", "sgst", "igst", "payment",
   "receipt", "phone", "address", "gstin", "patient", "name", "date",
   "bill", "subtotal", "payable", "invoice", "gst"]

/-- Unanchored plain-substring skip keywords of parseLineItem. -/
def plainSkips : List String :=
  ["block", "sector", "street", "delhi", "mumbai", "bangalore", "kolkata",
   "chennai", "hyderabad", "india", "pincode", "male", "female", "gender",
   "age", "dob", "birth", "aadhar", "uid", "email", "phone", "mobile",
   "tel", "fax", "admit", "discharge", "visit", "doctor", "physician",
   "surgeon", "remarks", "notes", "signature", "terms", "conditions",
   "policy"]

/-- Skip patterns with one internal \s* gap. -/
def gappedSkips : List (String × String) :=
  [("h", "no"), ("house", "no"), ("pin", "code"), ("pan", "no"),
   ("consultation", "date"), ("thank", "you")]

/-- Ten consecutive digits anywhere (skip pattern /\d{10}/). -/
def hasTenDigits (l : List Char) : Bool := scanAny tenDigitsAt l

/-- The skip-pattern battery of parseLineItem, applied to the trimmed
line (all patterns carry the i flag). -/
def skipPatternsHit (line : String) : Bool :=
  let t := lowerCh (trimCh line.toList)
  anchoredSkips.any (fun k => startsWithCh t k.toList) ||
    plainSkips.any (fun k => containsCh t k.toList) ||
    gappedSkips.any (fun p => containsGap t p.1.toList p.2.toList) ||
    hasTenDigits t

/-- /^:\s*[A-Za-z]+\// test. -/
def colonSlashAt (l : List Char) : Bool :=
  match l with
  | ':' :: r =>
    let r2 := r.dropWhile isWs
    let letters := r2.takeWhile Char.isAlpha
    !letters.isEmpty && headCh (r2.drop letters.length) 'x' == '/'
  | _ => false

/-- /^:\s*H\s*No/i test. -/
def colonHNoAt (l : List Char) : Bool :=
  match l with
  | ':' :: r => gapAt (r.dropWhile isWs) "h".toList "no".toList
  | _ => false

/-- Comma groups (?:,\d{3})* at the head: consumed chars and remainder. -/
def commaGroups : List Char → List Char × List Char
  | ',' :: a :: b :: c :: r =>
    if a.isDigit && b.isDigit && c.isDigit then
      let (g, r2) := commaGroups r
      (',' :: a :: b :: c :: g, r2)
    else ([], ',' :: a :: b :: c :: r)
  | l => ([], l)

/-- Optional fraction (?:\.\d{1,2})? at the head (greedy): consumed
chars and remainder. -/
def fracPart : List Char → List Char × List Char
  | '.' :: a :: rest =>
    if a.isDigit then
      match rest with
      | b :: r2 => if b.isDigit then (['.', a, b], r2) else (['.', a], b :: r2)
      | [] => (['.', a], [])
    else ([], '.' :: a :: rest)
  | l => ([], l)

/-- The amount token regex (\d+(?:,\d{3})*(?:\.\d{1,2})?) at the head:
the matched token and the remainder. -/
def matchAmountAt (l : List Char) : Option (List Char × List Char) :=
  let ds := l.takeWhile Char.isDigit
  if ds.isEmpty then none
  else
    let r1 := l.drop ds.length
    let (gs, r2) := commaGroups r1
    let (fr, r3) := fracPart r2
    some (ds ++ gs ++ fr, r3)

/-- JS parseFloat of a matched amount token with commas removed; the
token has at most two fraction digits, so the value is exact. -/
def amountValue (tok : List Char) : ℚ :=
  let noCommas := tok.filter (fun c => !(c == ','))
  let ip := noCommas.takeWhile Char.isDigit
  let fp := (noCommas.drop ip.length).drop 1
  mkRat (digitsToNat (ip ++ fp)) (10 ^ fp.length)

/-- All amount-token values in order (global regex match). -/
def collectAmountsAux : ℕ → List Char → List ℚ
  | 0, _ => []
  | _, [] => []
  | fuel + 1, l@(_ :: t) =>
    match matchAmountAt l with
    | some (tok, rest) => amountValue tok :: collectAmountsAux fuel rest
    | none => collectAmountsAux fuel t

def collectAmounts (l : List Char) : List ℚ := collectAmountsAux l.length l

/-- Quantity suffix nos?|units?|pcs?|×|x(?!\.) at the head. -/
def qtySuffixAt (l : List Char) : Bool :=
  startsWithCI l "no".toList || startsWithCI l "unit".toList ||
    startsWithCI l "pc".toList ||
    (match l with
     | c :: rest => c == '×' || (c.toLower == 'x' && !(headCh rest ' ' == '.'))
     | [] => false)

/-- The quantity regex at the head: a digit run whose following \s* run
ends at a quantity suffix. -/
def qtyScanAt (l : List Char) : Option ℕ :=
  let ds := l.takeWhile Char.isDigit
  if ds.isEmpty then none
  else if qtySuffixAt ((l.drop ds.length).dropWhile isWs) then
    some (digitsToNat ds)
  else none

/-- First quantity capture in the line. -/
def firstQty (l : List Char) : Option ℕ := scanFirst qtyScanAt l

/-- The class [\s:₹Rs\.] with the i flag. -/
def mrpClass (c : Char) : Bool :=
  isWs c || c == ':' || c == '₹' || c.toLower == 'r' || c.toLower == 's' ||
    c == '.'

/-- The MRP regex at the head: keyword, class run, then \d+(?:\.\d{2})?. -/
def mrpAt (l : List Char) : Option ℚ :=
  let afterKw : Option (List Char) :=
    match dropLitCI l "mrp".toList with
    | some r => some r
    | none =>
      match dropLitCI l "m.r.p".toList with
      | some r => some (match r with
        | '.' :: r2 => r2
        | _ => r)
      | none => none
  match afterKw with
  | none => none
  | some r =>
    let r2 := r.dropWhile mrpClass
    let ds := r2.takeWhile Char.isDigit
    if ds.isEmpty then none
    else
      some (match r2.drop ds.length with
        | '.' :: a :: b :: _ =>
          if a.isDigit && b.isDigit then
            mkRat (digitsToNat (ds ++ [a, b])) 100
          else mkRat (digitsToNat ds) 1
        | _ => mkRat (digitsToNat ds) 1)

/-- First MRP capture in the line. -/
def firstMrp (l : List Char) : Option ℚ := scanFirst mrpAt l

/-- ^\d+\.\s* stripped once from the head. -/
def stripLeadingNumDot (l : List Char) : List Char :=
  let ds := l.takeWhile Char.isDigit
  if ds.isEmpty then l
  else
    match l.drop ds.length with
    | '.' :: r => r.dropWhile isWs
    | _ => l

/-- Class [\s:] of the quantity-chunk replace. -/
def isWsColon (c : Char) : Bool := isWs c || c == ':'

/-- Length of the optional (?:nos?|units?|pcs?) suffix, greedy, at the
head. -/
def qtyChunkSuffixLen (l : List Char) : ℕ :=
  if startsWithCI l "nos".toList then 3
  else if startsWithCI l "no".toList then 2
  else if startsWithCI l "units".toList then 5
  else if startsWithCI l "unit".toList then 4
  else if startsWithCI l "pcs".toList then 3
  else if startsWithCI l "pc".toList then 2
  else 0

/-- Core of the quantity chunk after an optional keyword: class run,
mandatory digits, whitespace, optional suffix. Returns consumed length
including the pre chars already consumed by the keyword. -/
def qtyChunkCore (r : List Char) (pre : ℕ) : Option ℕ :=
  let cls := r.takeWhile isWsColon
  let r2 := r.drop cls.length
  let ds := r2.takeWhile Char.isDigit
  if ds.isEmpty then none
  else
    let r3 := r2.drop ds.length
    let ws2 := r3.takeWhile isWs
    some (pre + cls.length + ds.length + ws2.length +
      qtyChunkSuffixLen (r3.drop ws2.length))

/-- The quantity-chunk regex (?:qty|quantity)?[\s:]*\d+\s*(?:nos?|units?|pcs?)?
at the head: consumed length. -/
def qtyChunkAt (l : List Char) : Option ℕ :=
  match dropLitCI l "qty".toList with
  | some r =>
    match qtyChunkCore r 3 with
    | some n => some n
    | none => qtyChunkCore l 0
  | none =>
    match dropLitCI l "quantity".toList with
    | some r =>
      match qtyChunkCore r 8 with
      | some n => some n
      | none => qtyChunkCore l 0
    | none => qtyChunkCore l 0

/-- Global removal of a chunk matcher (JS replace with the g flag). -/
def removeChunksAux (chunkAt : List Char → Option ℕ) :
    ℕ → List Char → List Char
  | 0, l => l
  | _, [] => []
  | fuel + 1, l@(c :: t) =>
    match chunkAt l with
    | some n =>
      if n = 0 then c :: removeChunksAux chunkAt fuel t
      else removeChunksAux chunkAt fuel (l.drop n)
    | none => c :: removeChunksAux chunkAt fuel t

def removeChunks (chunkAt : List Char → Option ℕ) (l : List Char) :
    List Char :=
  removeChunksAux chunkAt l.length l

/-- The MRP chunk (?:mrp|m\.r\.p\.?)[\s:₹Rs\.]*\d+(?:\.\d{2})? at the
head: consumed length. -/
def mrpChunkAt (l : List Char) : Option ℕ :=
  let kw : Option (ℕ × List Char) :=
    match dropLitCI l "mrp".toList with
    | some r => some (3, r)
    | none =>
      match dropLitCI l "m.r.p".toList with
      | some r =>
        match r with
        | '.' :: r2 => some (6, r2)
        | _ => some (5, r)
      | none => none
  match kw with
  | none => none
  | some (k, r) =>
    let cls := r.takeWhile mrpClass
    let r2 := r.drop cls.length
    let ds := r2.takeWhile Char.isDigit
    if ds.isEmpty then none
    else
      let fr : ℕ :=
        match r2.drop ds.length with
        | '.' :: a :: b :: _ => if a.isDigit && b.isDigit then 3 else 0
        | _ => 0
      some (k + cls.length + ds.length + fr)

/-- The total chunk (?:total|sub-?total)?[\s:₹Rs\.]*\d+(?:,\d{3})*(?:\.\d{2})?
core after an optional keyword: consumed length. -/
def totalChunkCore (r : List Char) (pre : ℕ) : Option ℕ :=
  let cls := r.takeWhile mrpClass
  let r2 := r.drop cls.length
  let ds := r2.takeWhile Char.isDigit
  if ds.isEmpty then none
  else
    let r3 := r2.drop ds.length
    let (gs, r4) := commaGroups r3
    let fr : ℕ :=
      match r4 with
      | '.' :: a :: b :: _ => if a.isDigit && b.isDigit then 3 else 0
      | _ => 0
    some (pre + cls.length + ds.length + gs.length + fr)

def totalChunkAt (l : List Char) : Option ℕ :=
  match dropLitCI l "total".toList with
  | some r =>
    match totalChunkCore r 5 with
    | some n => some n
    | none => totalChunkCore l 0
  | none =>
    match dropLitCI l "sub-total".toList with
    | some r =>
      match totalChunkCore r 9 with
      | some n => some n
      | none =>
        match dropLitCI l "subtotal".toList with
        | some r2 =>
          match totalChunkCore r2 8 with
          | some n => some n
          | none => totalChunkCore l 0
        | none => totalChunkCore l 0
    | none =>
      match dropLitCI l "subtotal".toList with
      | some r =>
        match totalChunkCore r 8 with
        | some n => some n
        | none => totalChunkCore l 0
      | none => totalChunkCore l 0

/-- The rupee chunk ₹\s*\d+(?:,\d{3})*(?:\.\d{2})? at the head. -/
def rupeeChunkAt (l : List Char) : Option ℕ :=
  match l with
  | '₹' :: r =>
    let ws := r.takeWhile isWs
    let r2 := r.drop ws.length
    let ds := r2.takeWhile Char.isDigit
    if ds.isEmpty then none
    else
      let r3 := r2.drop ds.length
      let (gs, r4) := commaGroups r3
      let fr : ℕ :=
        match r4 with
        | '.' :: a :: b :: _ => if a.isDigit && b.isDigit then 3 else 0
        | _ => 0
      some (1 + ws.length + ds.length + gs.length + fr)
  | _ => none

/-- The decimal chunk \d+(?:,\d{3})*\.\d{2} (mandatory fraction) at the
head, with comma-group backtracking. -/
def decimalChunkAt (l : List Char) : Option ℕ :=
  let ds := l.takeWhile Char.isDigit
  if ds.isEmpty then none
  else
    let r1 := l.drop ds.length
    let (gs, _) := commaGroups r1
    let m := gs.length / 4
    let dotAt : List Char → Bool := fun r =>
      match r with
      | '.' :: a :: b :: _ => a.isDigit && b.isDigit
      | _ => false
    match (List.range (m + 1)).reverse.find? (fun k =>
        dotAt (r1.drop (4 * k))) with
    | some k => some (ds.length + 4 * k + 3)
    | none => none

/-- replace(/\s+/g, chr(32)): collapse whitespace runs to single blanks. -/
def collapseWsAux : Bool → List Char → List Char
  | _, [] => []
  | prevWs, c :: t =>
    if isWs c then
      if prevWs then collapseWsAux true t
      else ' ' :: collapseWsAux true t
    else c :: collapseWsAux false t

def collapseWs (l : List Char) : List Char := collapseWsAux false l

/-- replace(/\s+\d+(?:\.\d+)?$/, empty): strip one trailing number and
the whitespace run before it. -/
def stripTrailingNum (l : List Char) : List Char :=
  let r := l.reverse
  let d1 := r.takeWhile Char.isDigit
  if d1.isEmpty then l
  else
    let r1 := r.drop d1.length
    match r1 with
    | '.' :: rest =>
      let d2 := rest.takeWhile Char.isDigit
      let r2 := rest.drop d2.length
      if !d2.isEmpty && isWs (headCh r2 'x') then (r2.dropWhile isWs).reverse
      else l
    | _ =>
      if isWs (headCh r1 'x') then (r1.dropWhile isWs).reverse
      else l

/-- replace(/^:\s*/, empty). -/
def stripLeadingColon : List Char → List Char
  | ':' :: r => r.dropWhile isWs
  | l => l

/-- titleCase (parser.ts): lowercase, split on single blanks, capitalize
each word's first character, rejoin. -/
def capWord : List Char → List Char
  | [] => []
  | c :: t => c.toUpper :: t

def titleCase (l : List Char) : List Char :=
  List.intercalate [' ']
    (((lowerCh l).splitOnP (fun c => c == ' ')).map capWord)

/-- The item-name cleanup pipeline of parseLineItem. -/
def cleanItemName (l : List Char) : List Char :=
  let s1 := stripLeadingNumDot l
  let s2 := removeChunks qtyChunkAt s1
  let s3 := removeChunks mrpChunkAt s2
  let s4 := removeChunks totalChunkAt s3
  let s5 := removeChunks rupeeChunkAt s4
  let s6 := removeChunks decimalChunkAt s5
  let s7 := trimCh (collapseWs s6)
  let s8 := trimCh (stripTrailingNum s7)
  trimCh (stripLeadingColon s8)

/-- Contextual medical keywords excusing very large amounts. -/
def hasValidMedicalContext (line : String) : Bool :=
  ["surgery", "operation", "transplant", "implant", "icu", "ventilator",
   "dialysis"].any (fun k => containsCh (lowerCh line.toList) k.toList)

/-- The amounts of the line that survive the positivity filter. -/
def numericAmountsOf (l : List Char) : List ℚ :=
  (collectAmounts l).filter (fun n => 0 < n)

/-- The high-amount guard of parseLineItem: some amount above 100000 and
no contextual medical keyword. -/
def regexPriceGuardRejects (line : String) : Bool :=
  (numericAmountsOf line.toList).any (fun n => 100000 < n) &&
    !(hasValidMedicalContext line)

/-- The early rejection battery of parseLineItem: the source's sequential
early returns (skip patterns, colon lines, URLs, no positive amount, the
high-amount guard) gathered into one disjunction. -/
def parseLineRejected (line : String) : Bool :=
  skipPatternsHit line ||
    (colonSlashAt line.toList || colonHNoAt line.toList) ||
    (["www.", "http", ".com", "@"].any (fun k =>
      containsCh line.toList k.toList)) ||
    (collectAmounts line.toList).isEmpty ||
    (numericAmountsOf line.toList).isEmpty ||
    regexPriceGuardRejects line

/-- parseLineItem (parser.ts). -/
def parseLineItem (line : String) (defaultCategory : String) :
    Option ParsedBillItem :=
  if parseLineRejected line then none
  else
    let l := line.toList
    let lowerLine := lowerCh l
    let numericAmounts := numericAmountsOf l
    let quantity : ℕ := (firstQty l).getD 1
    let mrp : Option ℚ := firstMrp l
    let itemName := cleanItemName l
    if itemName.length < 3 then none
    else if (!itemName.isEmpty && itemName.all (fun c => !c.isAlphanum)) ||
        containsCh itemName "///".toList then none
    else if 2 * (itemName.filter Char.isAlphanum).length <
        itemName.length then none
    else
      let category := (detectCategory lowerLine).getD defaultCategory
      let totalBilled0 := numericAmounts.getLastD 0
      let unitPrice0 : ℚ :=
        match mrp with
        | some m => if m = 0 then totalBilled0 / (quantity : ℚ) else m
        | none => totalBilled0 / (quantity : ℚ)
      let n := numericAmounts.length
      let up_tb : ℚ × ℚ :=
        if 2 ≤ n then
          if 3 ≤ n ∧ numericAmounts.getD 0 0 = (quantity : ℚ) then
            (numericAmounts.getD 1 0, numericAmounts.getD 2 0)
          else if numericAmounts.getD (n - 2) 0 <
              numericAmounts.getD (n - 1) 0 then
            (numericAmounts.getD (n - 2) 0, totalBilled0)
          else (unitPrice0, totalBilled0)
        else (unitPrice0, totalBilled0)
      some { rawText := line
             itemName := String.mk (titleCase itemName)
             category := category
             quantity := (quantity : ℚ)
             mrp := mrp
             unitPrice := some up_tb.1
             totalBilled := up_tb.2 }

/-- Nonempty trimmed lines of the OCR text. -/
def splitLines (s : String) : List (List Char) :=
  ((s.toList.splitOnP (fun c => c == '\n')).map trimCh).filter
    (fun l => !l.isEmpty)

/-- Hospital-name heuristic: among the first five lines, the first that is
longer than 5 characters, fully uppercase, and free of a dd/dd pattern. -/
def hasDDsepDD : List Char → Bool :=
  scanAny (fun l =>
    match l with
    | a :: b :: c :: d :: e :: _ =>
      a.isDigit && b.isDigit && (c == '/' || c == '-') &&
        d.isDigit && e.isDigit
    | _ => false)

def hospitalNameOf (lines : List (List Char)) : Option String :=
  ((lines.take 5).find? (fun line =>
    5 < line.length && line == upperCh line && !hasDDsepDD line)).map
    (fun line => String.mk (titleCase line))

/-- The 15 character classes of the GSTIN regex (i flag: letters of either
case). -/
def gstinClasses : List (Char → Bool) :=
  [Char.isDigit, Char.isDigit] ++ List.replicate 5 Char.isAlpha ++
    List.replicate 4 Char.isDigit ++
    [Char.isAlpha, Char.isAlphanum, fun c => c.toLower == 'z',
     Char.isAlphanum]

/-- First GSTIN match with word boundaries on both sides. -/
def gstinScan : Bool → List Char → Option String
  | _, [] => none
  | prevWord, l@(c :: t) =>
    if !prevWord && matchClasses l gstinClasses &&
        !(isWordChar (headCh (l.drop 15) ' ')) then
      some (String.mk (l.take 15))
    else gstinScan (isWordChar c) t

def gstinOf (l : List Char) : Option String := gstinScan false l

/-- Exactly n leading digits with their value. -/
def takeDigitsVal (l : List Char) (n : ℕ) : Option (ℕ × List Char) :=
  if (l.take n).length = n && (l.take n).all Char.isDigit then
    some (digitsToNat (l.take n), l.drop n)
  else none

/-- \d{1,2} then a date separator, both greedy choices in order. -/
def digitsThenSep (r : List Char) : List (ℕ × List Char) :=
  (match takeDigitsVal r 2 with
   | some (v, s :: rest) => if s == '/' || s == '-' then [(v, rest)] else []
   | _ => []) ++
  (match takeDigitsVal r 1 with
   | some (v, s :: rest) => if s == '/' || s == '-' then [(v, rest)] else []
   | _ => [])

/-- \d{2,4}, greedy. -/
def dateTail (r : List Char) : Option (ℕ × List Char) :=
  match takeDigitsVal r 4 with
  | some v => some v
  | none =>
    match takeDigitsVal r 3 with
    | some v => some v
    | none => takeDigitsVal r 2

/-- The date regex \d{1,2}[\/\-]\d{1,2}[\/\-]\d{2,4} at the head. -/
def matchDateAt (l : List Char) : Option (ℕ × ℕ × ℕ × List Char) :=
  ((digitsThenSep l).flatMap (fun p =>
    (digitsThenSep p.2).flatMap (fun q =>
      match dateTail q.2 with
      | some (y, rest) => [(p.1, q.1, y, rest)]
      | none => []))).head?

/-- All date matches in order (global regex). -/
def collectDatesAux : ℕ → List Char → List (ℕ × ℕ × ℕ)
  | 0, _ => []
  | _, [] => []
  | fuel + 1, l@(_ :: t) =>
    match matchDateAt l with
    | some (d, m, y, rest) => (d, m, y) :: collectDatesAux fuel rest
    | none => collectDatesAux fuel t

def collectDates (l : List Char) : List (ℕ × ℕ × ℕ) :=
  collectDatesAux l.length l

/-- parseIndianDate (parser.ts): 2-digit years get 2000 added, an invalid
day/month pair is swapped, then new Date(year, month-1, day). -/
def parseIndianDate (d m y : ℕ) : JsDate :=
  let y1 : ℕ := if y < 100 then y + 2000 else y
  let dm : ℕ × ℕ := if 31 < d ∨ 12 < m then (m, d) else (d, m)
  { year := (y1 : ℤ), monthIndex := (dm.2 : ℤ) - 1, day := (dm.1 : ℤ) }

/-- Keyword class [\s\.#:\-no] (i flag) of the bill-number regex. -/
def billNoClass (c : Char) : Bool :=
  isWs c || c == '.' || c == '#' || c == ':' || c == '-' ||
    c.toLower == 'n' || c.toLower == 'o'

/-- Capture class [A-Z0-9\-] with the i flag. -/
def billCaptureClass (c : Char) : Bool := c.isAlphanum || c == '-'

/-- The bill-number regex at the head: keyword alternatives in order, the
greedy class run backtracked until a capturable character starts. -/
def billNoAt (l : List Char) : Option String :=
  let kws :=
    (match dropLitCI l "bill".toList with
     | some r => [r]
     | none => []) ++
    (match dropLitCI l "invoice".toList with
     | some r => [r]
     | none => []) ++
    (match dropLitCI l "inv".toList with
     | some r => [r]
     | none => [])
  (kws.flatMap (fun r =>
    let cls := r.takeWhile billNoClass
    match (List.range (cls.length + 1)).reverse.find? (fun j =>
        billCaptureClass (headCh (r.drop j) ' ')) with
    | some j => [String.mk ((r.drop j).takeWhile billCaptureClass)]
    | none => [])).head?

def billNumberOf (l : List Char) : Option String := scanFirst billNoAt l

/-- Capture class [0-9,] of the totals regexes. -/
def numCaptureClass (c : Char) : Bool := c.isDigit || c == ','

/-- The capture ([0-9,]+\.?\d*) after a greedy, backtracked class run:
parseFloat of the capture with commas removed (the digit-free corner that
JS turns into NaN is modelled as 0; no input of this development reaches
it). -/
def captureNumber (r : List Char) (klass : Char → Bool) : Option ℚ :=
  let cls := r.takeWhile klass
  match (List.range (cls.length + 1)).reverse.find? (fun j =>
      numCaptureClass (headCh (r.drop j) ' ')) with
  | none => none
  | some j =>
    let r2 := r.drop j
    let c1 := r2.takeWhile numCaptureClass
    let fr : List Char :=
      match r2.drop c1.length with
      | '.' :: rest => rest.takeWhile Char.isDigit
      | _ => []
    let ipd := c1.filter Char.isDigit
    some (mkRat (digitsToNat (ipd ++ fr)) (10 ^ fr.length))

/-- /(?:gross|sub)\s*total[\s:₹Rs\.]*([0-9,]+\.?\d*)/i at the head. -/
def grossAt (l : List Char) : Option ℚ :=
  let kws :=
    (match dropLitCI l "gross".toList with
     | some r => [r]
     | none => []) ++
    (match dropLitCI l "sub".toList with
     | some r => [r]
     | none => [])
  (kws.flatMap (fun r =>
    match dropLitCI (r.dropWhile isWs) "total".toList with
    | some r2 =>
      match captureNumber r2 mrpClass with
      | some v => [v]
      | none => []
    | none => [])).head?

def grossTotalOf (l : List Char) : Option ℚ := scanFirst grossAt l

/-- /(?:net|grand|final)\s*(?:total|payable|amount).../i at the head. -/
def netAt (l : List Char) : Option ℚ :=
  let kws :=
    (match dropLitCI l "net".toList with
     | some r => [r]
     | none => []) ++
    (match dropLitCI l "grand".toList with
     | some r => [r]
     | none => []) ++
    (match dropLitCI l "final".toList with
     | some r => [r]
     | none => [])
  (kws.flatMap (fun r =>
    let r1 := r.dropWhile isWs
    let kws2 :=
      (match dropLitCI r1 "total".toList with
       | some r2 => [r2]
       | none => []) ++
      (match dropLitCI r1 "payable".toList with
       | some r2 => [r2]
       | none => []) ++
      (match dropLitCI r1 "amount".toList with
       | some r2 => [r2]
       | none => [])
    kws2.flatMap (fun r2 =>
      match captureNumber r2 mrpClass with
      | some v => [v]
      | none => []))).head?

def netPayableOf (l : List Char) : Option ℚ := scanFirst netAt l

/-- Class [\s:\-₹Rs\.] of the discount regex. -/
def discountClass (c : Char) : Bool := mrpClass c || c == '-'

def discountAt (l : List Char) : Option ℚ :=
  match dropLitCI l "discount".toList with
  | some r => captureNumber r discountClass
  | none => none

def discountOf (l : List Char) : Option ℚ := scanFirst discountAt l

/-- Class [\s\(\d%\)\:₹Rs\.] of the GST regexes (it contains digits, so
the capture backtracks into the run). -/
def gstClass (c : Char) : Bool :=
  mrpClass c || c == '(' || c == ')' || c == '%' || c.isDigit

def cgstAt (l : List Char) : Option ℚ :=
  match dropLitCI l "cgst".toList with
  | some r => captureNumber r gstClass
  | none => none

def cgstOf (l : List Char) : Option ℚ := scanFirst cgstAt l

def sgstAt (l : List Char) : Option ℚ :=
  match dropLitCI l "sgst".toList with
  | some r => captureNumber r gstClass
  | none => none

def sgstOf (l : List Char) : Option ℚ := scanFirst sgstAt l

/-- One line of the item loop: category headers switch the cursor, other
lines may contribute an item. -/
def parseLineStep (st : String × List ParsedBillItem) (line : List Char) :
    String × List ParsedBillItem :=
  let lower := lowerCh line
  if isCategoryHeader lower then
    ((detectCategory lower).getD st.1, st.2)
  else
    match parseLineItem (String.mk line) st.1 with
    | some it => (st.1, st.2 ++ [it])
    | none => st

/-- parseBillText (parser.ts). -/
def parseBillText (ocrText : String) : ParsedBill :=
  let text := ocrText.toList
  let lines := splitLines ocrText
  let dates := collectDates text
  { hospitalName := hospitalNameOf lines
    gstin := gstinOf text
    billDate := dates.getLast?.map (fun t => parseIndianDate t.1 t.2.1 t.2.2)
    billNumber := billNumberOf text
    items := (lines.foldl parseLineStep ("Other", [])).2
    grossTotal := grossTotalOf text
    netPayable := netPayableOf text
    discount := discountOf text
    cgst := cgstOf text
    sgst := sgstOf text }

/-- The canned demo OCR transcript of mockOcrResult (ocr.ts), verbatim. -/
def mockOcrText : String :=
  "
CITY GENERAL HOSPITAL
123 Medical Lane, Mumbai - 400001
GSTIN: 27AABCU9603R1ZM
Phone: 022-12345678

PATIENT DETAILS
Name: John Doe
Age: 45 Years / Male
Patient ID: PID-2024-12345
Admission: 20/12/2024
Discharge: 23/12/2024

BILL DETAILS                           Bill No: INV-2024-98765
                                        Date: 23/12/2024

PHARMACY
1. Paracetamol 500mg Tab    Qty: 20    MRP: 3.00    Total: 60.00
2. Amoxicillin 500mg Cap    Qty: 15    MRP: 8.00    Total: 120.00
3. Omeprazole 20mg Cap      Qty: 10    MRP: 6.00    Total: 60.00
4. Normal Saline 500ml      Qty: 4     MRP: 45.00   Total: 180.00
                                    Pharmacy Total: 420.00

LABORATORY
5. Complete Blood Count (CBC)           Total: 350.00
6. Lipid Profile                        Total: 600.00
7. Liver Function Test                  Total: 700.00
8. X-Ray Chest PA View                  Total: 400.00
                                    Lab Total: 2050.00

ROOM CHARGES
9. Semi-Private Room (3 days × 3500)    Total: 10500.00

CONSULTATION
10. Specialist Consultation (2 visits)   Total: 1500.00

NURSING
11. Nursing Charges (3 days × 400)       Total: 1200.00

CONSUMABLES
12. IV Cannula                Qty: 2    Total: 150.00
13. Surgical Gloves           Qty: 10   Total: 400.00
14. Syringe 5ml              Qty: 6    Total: 90.00

                                    Gross Total: 16310.00
                                    Discount: -500.00
                                    CGST (9%): 715.45
                                    SGST (9%): 715.45
                                    
                                    NET PAYABLE: 17240.90

Payment Mode: Cash
Receipt No: REC-2024-45678
"

/-! ## ocr.ts result shape and routes.ts analyze cascade -/

/-- ocr.ts OcrResult. -/
structure OcrResult where
  success : Bool
  text : String
  confidence : ℕ
  error : Option String := none
deriving DecidableEq, Repr

/-- mockOcrResult (ocr.ts). -/
def mockOcrResult : OcrResult :=
  { success := true, confidence := 90, text := mockOcrText }

/-- mindee-parser.ts MindeeParseResult; billDate as an opaque timestamp. -/
structure MindeeParseResult where
  hospitalName : String
  billDate : ℤ
  billNumber : Option String := none
  items : List ParsedBillItem
  subtotal : ℚ
  totalTax : ℚ
  totalAmount : ℚ
  confidence : ℕ
deriving DecidableEq, Repr

/-- Conversion of a Gemini item to the common shape (routes.ts map in
both Gemini branches). -/
def aiToParsedItem (it : AIExtractedBillItem) : ParsedBillItem :=
  { rawText := it.itemName
    itemName := it.itemName
    category := it.category
    quantity := it.quantity
    unitPrice := some it.unitPrice
    totalBilled := it.totalBilled }

/-- Outcome of the /api/analyze pipeline: one of the two distinguished
errors, or a successful extraction tagged with the winning tier. -/
inductive AnalyzeOutcome where
  | ocrFailed
  | notMedicalBill (confidence : ℕ)
  | success (parsingMethod : String) (items : List ParsedBillItem)
deriving DecidableEq, Repr

/-- The /api/analyze extraction cascade (routes.ts lines 268-403). Each
adapter argument is the value the adapter function returns after its own
try/catch: none stands for an internal exception, an unparseable
response, or an unconfigured client — exactly the cases the adapters
collapse to null. -/
def analyzeCascade (hasFile mindeeAvail geminiAvail : Bool)
    (mindeeResult : Option MindeeParseResult)
    (geminiVision : Option AIExtractedBill)
    (ocr : OcrResult)
    (geminiText : Option AIExtractedBill) : AnalyzeOutcome :=
  if hasFile then
    let tier1 : Option (String × List ParsedBillItem) :=
      if mindeeAvail then
        match mindeeResult with
        | some r => if 0 < r.items.length then some ("mindee", r.items)
                    else none
        | none => none
      else none
    match tier1 with
    | some (m, its) => .success m its
    | none =>
      let tier2 : Option (String × List ParsedBillItem) :=
        if geminiAvail then
          match geminiVision with
          | some r =>
            if 0 < r.items.length then
              some ("gemini-vision", r.items.map aiToParsedItem)
            else none
          | none => none
        else none
      match tier2 with
      | some (m, its) => .success m its
      | none =>
        if !ocr.success then .ocrFailed
        else
          let v := validateMedicalBill ocr.text
          if !v.isMedicalBill then .notMedicalBill v.confidence
          else
            let tier3 : Option (String × List ParsedBillItem) :=
              if geminiAvail then
                match geminiText with
                | some r =>
                  if 0 < r.items.length then
                    some ("gemini-text", r.items.map aiToParsedItem)
                  else none
                | none => none
              else none
            match tier3 with
            | some (m, its) => .success m its
            | none => .success "ocr-regex" (parseBillText ocr.text).items
  else .success "demo-mock" (parseBillText mockOcrResult.text).items

/-! ## Concrete inputs for the sanitizer claims -/

def c6Item : AIExtractedBillItem :=
  { itemName := "Dialysis Session", category := "Other", quantity := 1,
    unitPrice := 150000, totalBilled := 150000 }

def c6RawItem : RawAIItem :=
  { itemName := some "Dialysis Session", quantity := some 1,
    unitPrice := some 150000, totalBilled := some 150000 }

def c7Item : ParsedBillItem :=
  { rawText := "", itemName := "Paracetamol 500mg Tablet",
    category := "Other", quantity := 1, unitPrice := some 0,
    totalBilled := 0 }

def c7wItem : AIExtractedBillItem :=
  { itemName := "Free Syringe Pack", category := "Other", quantity := 1,
    unitPrice := 0, totalBilled := 0 }

/-! ## Supporting lemmas for the findBestMatch fold -/

/-- One step of the fold is monotone in the score component. -/
lemma fbm_step_score_mono (item : ParsedBillItem) (e : GovtPriceEntry)
    {a b : Option GovtPriceEntry × ℚ} (h : a.2 ≤ b.2) :
    (fbmStep item a e).2 ≤ (fbmStep item b e).2 := by
  unfold fbmStep
  dsimp only
  split <;> split <;> rename_i h1 h2
  · exact le_refl _
  · rcases lt_or_le b.2 (entryScore item e) with hlt | hle
    · exact absurd ⟨hlt, h1.2⟩ h2
    · exact hle
  · exact le_of_lt (lt_of_le_of_lt h h2.1)
  · exact h

/-- The running score component of the fold is monotone in the initial
state's score. -/
lemma fbm_foldl_score_mono (item : ParsedBillItem) (l : List GovtPriceEntry) :
    ∀ s t : Option GovtPriceEntry × ℚ, s.2 ≤ t.2 →
      (l.foldl (fbmStep item) s).2 ≤ (l.foldl (fbmStep item) t).2 := by
  induction l with
  | nil => intro s t h; exact h
  | cons e l ih =>
    intro s t h
    exact ih _ _ (fbm_step_score_mono item e h)

/-- The running score never decreases along the fold. -/
lemma fbm_foldl_score_le (item : ParsedBillItem) (l : List GovtPriceEntry) :
    ∀ s : Option GovtPriceEntry × ℚ, s.2 ≤ (l.foldl (fbmStep item) s).2 := by
  induction l with
  | nil => intro s; exact le_refl _
  | cons e l ih =>
    intro s
    refine le_trans ?_ (ih (fbmStep item s e))
    unfold fbmStep
    dsimp only
    split
    · rename_i h; exact le_of_lt h.1
    · exact le_refl _

lemma fbm_foldl_inv (item : ParsedBillItem) (l : List GovtPriceEntry) :
    ∀ s : Option GovtPriceEntry × ℚ, FbmInv item s →
      FbmInv item (l.foldl (fbmStep item) s) := by
  induction l with
  | nil => intro s h; exact h
  | cons e l ih =>
    intro s h
    apply ih
    unfold fbmStep
    dsimp only
    split
    · refine ⟨fun h0 => ?_, fun e' he' => ?_⟩
      · cases h0
      · cases he'
        rfl
    · exact h

/-- Once the fold holds a match it never reverts to none. -/
lemma fbm_foldl_isSome (item : ParsedBillItem) (l : List GovtPriceEntry) :
    ∀ s : Option GovtPriceEntry × ℚ, s.1.isSome →
      (l.foldl (fbmStep item) s).1.isSome := by
  induction l with
  | nil => intro s h; exact h
  | cons e l ih =>
    intro s h
    apply ih
    unfold fbmStep
    dsimp only
    split
    · rfl
    · exact h

/-- An entry at or above the threshold forces the fold to record a match. -/
lemma fbm_foldl_some_of_threshold (item : ParsedBillItem)
    (l : List GovtPriceEntry) :
    ∀ s : Option GovtPriceEntry × ℚ, FbmInv item s →
      (∃ e ∈ l, 2/5 ≤ entryScore item e) →
      (l.foldl (fbmStep item) s).1.isSome := by
  induction l with
  | nil =>
    intro s _ h
    obtain ⟨e, he, _⟩ := h
    cases he
  | cons e l ih =>
    intro s hinv hex
    obtain ⟨e0, he0, hsc⟩ := hex
    rw [List.foldl_cons]
    rcases List.mem_cons.mp he0 with rfl | hmem
    · apply fbm_foldl_isSome
      rcases hs : s.1 with _ | em
      · have hs2 : s.2 = 0 := hinv.1 hs
        unfold fbmStep
        dsimp only
        rw [hs2, if_pos ⟨lt_of_lt_of_le (by norm_num) hsc, hsc⟩]
        rfl
      · unfold fbmStep
        dsimp only
        split
        · rfl
        · rw [hs]
          rfl
    · exact ih (fbmStep item s e) (fbm_foldl_inv item [e] s hinv) ⟨e0, hmem, hsc⟩

/-! ## Claim theorems: price matcher and classifier -/

/-- C5 (amended): the fuzzy similarity score always lies between 0 and 1,
and equal strings score exactly 1; general symmetry does not hold (see the
counterexample). -/
theorem fuzzyScore_bounds (x y : String) :
    0 ≤ fuzzyScore x y ∧ fuzzyScore x y ≤ 1 ∧ fuzzyScore x x = 1 := by
  refine ⟨?_, ?_, ?_⟩
  · unfold fuzzyScore
    dsimp only
    split
    · norm_num
    · split
      · apply div_nonneg
        · exact le_min (by positivity) (by positivity)
        · exact le_max_of_le_left (by positivity)
      · split
        · norm_num
        · apply div_nonneg (by positivity) (by positivity)
  · unfold fuzzyScore
    dsimp only
    split
    · norm_num
    · split
      · rcases eq_or_lt_of_le
          (le_max_of_le_left (by positivity :
            (0:ℚ) ≤ ((lowerTrim x).length : ℚ))) with h | h
        · rw [← h, div_zero]
          norm_num
        · rw [div_le_one h]
          exact_mod_cast min_le_max
      · split
        · norm_num
        · rename_i hq
          rw [div_le_one (by positivity)]
          exact_mod_cast List.length_filter_le _ _
  · unfold fuzzyScore
    simp

/-- C5 counterexample: fuzzyScore is not symmetric. The word-containment
branch divides by the query word count only, so swapping the arguments
changes the score. -/
theorem fuzzyScore_not_symmetric :
    fuzzyScore "abcq" "abc xyz" = 1 ∧ fuzzyScore "abc xyz" "abcq" = 1/2 ∧
    fuzzyScore "abcq" "abc xyz" ≠ fuzzyScore "abc xyz" "abcq" := by
  refine ⟨?_, ?_, ?_⟩ <;> with_unfolding_all decide

/-- Exactly one of the three summary status groups holds for each result. -/
lemma status_filter_partition (results : List PriceComparisonResult) :
    (results.filter (fun r => r.status == CompareStatus.fair)).length +
      (results.filter (fun r => r.status == CompareStatus.overcharged ||
        r.status == CompareStatus.suspicious)).length +
      (results.filter (fun r => r.status == CompareStatus.not_found)).length =
      results.length := by
  induction results with
  | nil => rfl
  | cons r t ih =>
    simp only [List.filter_cons, List.length_cons]
    cases hr : r.status <;> simp [hr] <;> omega

/-- C10: calculateSummary reports itemCount equal to the input length, its
three status counts partition the input, and the overcharged count folds
the suspicious results in with the overcharged ones. -/
theorem calculateSummary_counts (results : List PriceComparisonResult) :
    (calculateSummary results).itemCount = results.length ∧
    (calculateSummary results).fairCount +
      (calculateSummary results).overchargedCount +
      (calculateSummary results).notFoundCount =
      (calculateSummary results).itemCount ∧
    (calculateSummary results).overchargedCount =
      (results.filter (fun r => r.status == CompareStatus.overcharged ||
        r.status == CompareStatus.suspicious)).length := by
  refine ⟨rfl, ?_, rfl⟩
  show (results.filter _).length + (results.filter _).length +
    (results.filter _).length = results.length
  exact status_filter_partition results

/-- max 0 a is 0 for nonpositive a. -/
lemma max_zero_of_nonpos {a : ℚ} (h : a ≤ 0) : max 0 a = 0 :=
  max_eq_left h

/-- The fair and not_found consequences hold for every single result. -/
lemma comparePricesItem_consequences (i : ParsedBillItem)
    (db : List GovtPriceEntry) :
    ((comparePricesItem i db).status = CompareStatus.fair →
      (comparePricesItem i db).overchargeAmount = 0) ∧
    ((comparePricesItem i db).status = CompareStatus.not_found →
      (comparePricesItem i db).govtCeilingPrice = none) := by
  unfold comparePricesItem
  cases h : findBestMatch i db with
  | none => simp
  | some m =>
    dsimp only
    split
    · simp [max_self]
    · split <;> simp

/-- C1: per matched item, the three-way status classification and the
overcharge amount formula of comparePrices, together with the global
consequences (fair results carry amount 0, not_found results carry a null
ceiling). Quantities are nonnegative, as extraction guarantees. -/
theorem comparePrices_classification (items : List ParsedBillItem)
    (db : List GovtPriceEntry) (hq : ∀ i ∈ items, 0 ≤ i.quantity) :
    (∀ r ∈ comparePrices items db,
        (r.status = CompareStatus.fair → r.overchargeAmount = 0) ∧
        (r.status = CompareStatus.not_found → r.govtCeilingPrice = none)) ∧
    (∀ i ∈ items, ∀ e, findBestMatch i db = some e →
        (chargedUnitPrice i - e.ceilingPrice ≤ 0 →
            (comparePricesItem i db).status = CompareStatus.fair ∧
            (comparePricesItem i db).overchargeAmount = 0) ∧
        (0 < chargedUnitPrice i - e.ceilingPrice →
          (1 < (chargedUnitPrice i - e.ceilingPrice) / e.ceilingPrice →
            (comparePricesItem i db).status = CompareStatus.suspicious) ∧
          ((chargedUnitPrice i - e.ceilingPrice) / e.ceilingPrice ≤ 1 →
            (comparePricesItem i db).status = CompareStatus.overcharged)) ∧
        (comparePricesItem i db).overchargeAmount =
          max 0 ((chargedUnitPrice i - e.ceilingPrice) * i.quantity)) := by
  constructor
  · intro r hr
    obtain ⟨i, _, rfl⟩ := List.mem_map.mp hr
    exact comparePricesItem_consequences i db
  · intro i hi e he
    have hq' : 0 ≤ i.quantity := hq i hi
    unfold comparePricesItem
    rw [he]
    dsimp only
    refine ⟨?_, ?_, ?_⟩
    · intro hle
      rw [if_pos hle]
      exact ⟨rfl, max_self 0⟩
    · intro hpos
      rw [if_neg (not_le.mpr hpos)]
      constructor
      · intro hgt
        rw [if_pos hgt]
      · intro hle
        rw [if_neg (not_lt.mpr hle)]
    · split
      · rename_i hle
        dsimp only
        rw [max_self, max_zero_of_nonpos (mul_nonpos_of_nonpos_of_nonneg hle hq')]
      · split <;> rfl

/-- Witness for C1 at a concrete matched, overcharged item. -/
theorem comparePrices_classification_witness :
    (comparePricesItem c1Item [c1Entry]).status = CompareStatus.overcharged ∧
    (comparePricesItem c1Item [c1Entry]).overchargeAmount = 100 := by
  have h := (comparePrices_classification [c1Item] [c1Entry]
    (by intro i hi; rw [List.mem_singleton.mp hi]; norm_num [c1Item])).2
    c1Item (List.mem_singleton.mpr rfl) c1Entry (by with_unfolding_all decide)
  refine ⟨(h.2.1 (by with_unfolding_all decide)).2
    (by with_unfolding_all decide), ?_⟩
  rw [h.2.2]
  with_unfolding_all decide

/-- C2 counterexample: with a same-category entry above the threshold, the
early exit of the two-pass findBestMatch (boosted score 23/30 > 0.7) can
return a match scoring strictly below the best the single unrestricted
pass finds (an exact cross-category match scoring 1). -/
theorem findBestMatch_early_exit_counterexample :
    (c2SameCat ∈ categoryFiltered c2Item c2Db ∧
      2/5 ≤ entryScore c2Item c2SameCat) ∧
    findBestMatch c2Item c2Db = some c2SameCat ∧
    entryScore c2Item c2SameCat < bestGlobalScore c2Item c2Db := by
  refine ⟨⟨?_, ?_⟩, ?_, ?_⟩ <;> with_unfolding_all decide

/-- C2 (amended): when some same-category entry reaches the 0.4 threshold
and the category pass does not trigger the early exit (its best boosted
score stays at or below 0.7), the two-pass findBestMatch returns a match
whose boosted score is at least the best boosted score of a single pass
over the whole unrestricted catalog. -/
theorem findBestMatch_monotone_no_early_exit (item : ParsedBillItem)
    (db : List GovtPriceEntry)
    (hthr : ∃ e ∈ categoryFiltered item db, 2/5 ≤ entryScore item e)
    (hexit : ((categoryFiltered item db).foldl (fbmStep item) (none, 0)).2 ≤
      7/10) :
    ∃ e, findBestMatch item db = some e ∧
      bestGlobalScore item db ≤ entryScore item e := by
  set s1 := (categoryFiltered item db).foldl (fbmStep item) (none, 0) with hs1
  have hinv0 : FbmInv item ((none, 0) : Option GovtPriceEntry × ℚ) :=
    ⟨fun _ => rfl, fun e he => by cases he⟩
  have hinv1 : FbmInv item s1 := fbm_foldl_inv item _ _ hinv0
  have hsome1 : s1.1.isSome :=
    fbm_foldl_some_of_threshold item _ _ hinv0 hthr
  have haux : findBestMatchAux item db = db.foldl (fbmStep item) s1 := by
    unfold findBestMatchAux
    rw [← hs1, if_neg]
    intro hcon
    exact absurd hcon.2 (not_lt.mpr hexit)
  set final := db.foldl (fbmStep item) s1 with hfinal
  have hinvf : FbmInv item final := fbm_foldl_inv item _ _ hinv1
  have hsomef : final.1.isSome := fbm_foldl_isSome item _ _ hsome1
  obtain ⟨e, he⟩ := Option.isSome_iff_exists.mp hsomef
  refine ⟨e, ?_, ?_⟩
  · show (findBestMatchAux item db).1 = some e
    rw [haux]
    exact he
  · have hscore : final.2 = entryScore item e := hinvf.2 e he
    have h0 : ((none, 0) : Option GovtPriceEntry × ℚ).2 ≤ s1.2 :=
      fbm_foldl_score_le item _ _
    calc bestGlobalScore item db ≤ final.2 :=
          fbm_foldl_score_mono item db _ _ h0
      _ = entryScore item e := hscore

/-- Witness for C2 at a concrete catalog without an early exit. -/
theorem findBestMatch_monotone_witness :
    ∃ e, findBestMatch c2wItem [c2wEntry] = some e ∧
      bestGlobalScore c2wItem [c2wEntry] ≤ entryScore c2wItem e :=
  findBestMatch_monotone_no_early_exit c2wItem [c2wEntry]
    ⟨c2wEntry, by with_unfolding_all decide, by with_unfolding_all decide⟩
    (by with_unfolding_all decide)

/-! ## Claim theorems: bill-type validator -/

/-- C4 counterexample: on the text "grocery" there is one non-medical hit
and no medical hit, yet the returned confidence is 70, not the claimed
min(90, 50 + 10 x hits) = 60 (the code doubles the hit count before
applying the formula). -/
theorem validateMedicalBill_confidence_counterexample :
    (detectedMedicalIn "grocery").length = 0 ∧
    (detectedNonMedicalIn "grocery").length = 1 ∧
    (validateMedicalBill "grocery").isMedicalBill = false ∧
    (validateMedicalBill "grocery").confidence = 70 ∧
    min 90 (50 + 10 * (detectedNonMedicalIn "grocery").length) = 60 := by
  refine ⟨?_, ?_, ?_, ?_, ?_⟩ <;> decide

/-- C4 (amended): when the non-medical keyword hits outnumber the medical
ones, validateMedicalBill rejects with confidence
min(90, 50 + 10 x (2 x nonMedicalHits)) — hits are double-weighted — and a
reason naming the first detected non-medical keyword. -/
theorem validateMedicalBill_reject_nonmedical (text : String)
    (h : (detectedMedicalIn text).length < (detectedNonMedicalIn text).length) :
    (validateMedicalBill text).isMedicalBill = false ∧
    (validateMedicalBill text).confidence =
      min 90 (50 + (detectedNonMedicalIn text).length * 2 * 10) ∧
    (validateMedicalBill text).reason =
      some ("This appears to be a " ++ (detectedNonMedicalIn text).headD "" ++
        " receipt, not a medical bill.") := by
  unfold validateMedicalBill
  have h1 : ¬((detectedMedicalIn text).length = 0 ∧
      (detectedNonMedicalIn text).length * 2 = 0) := by omega
  have h2 : ¬(3 ≤ (detectedMedicalIn text).length ∧
      (detectedNonMedicalIn text).length * 2 ≤ 1) := by omega
  have h3 : ¬(1 ≤ (detectedMedicalIn text).length ∧
      (detectedNonMedicalIn text).length * 2 = 0) := by omega
  have h4 : (detectedMedicalIn text).length <
      (detectedNonMedicalIn text).length * 2 := by omega
  rw [if_neg h1, if_neg h2, if_neg h3, if_pos h4]
  exact ⟨rfl, rfl, rfl⟩

/-- Witness for C4 at the concrete text "grocery". -/
theorem validateMedicalBill_reject_witness :
    (validateMedicalBill "grocery").isMedicalBill = false ∧
    (validateMedicalBill "grocery").confidence =
      min 90 (50 + (detectedNonMedicalIn "grocery").length * 2 * 10) ∧
    (validateMedicalBill "grocery").reason =
      some ("This appears to be a " ++
        (detectedNonMedicalIn "grocery").headD "" ++
        " receipt, not a medical bill.") :=
  validateMedicalBill_reject_nonmedical "grocery" (by decide)

/-! ## Claim theorems: zero-price sanitization (C7) -/

/-- C7 counterexample: the Mindee-tier sanitizer keeps an item with
unitPrice 0 and a non-discount name; such an item reaches the price
matcher from that tier. -/
theorem mindee_keeps_zero_price_counterexample :
    (Mindee.cleanParsedItems [c7Item] 1000).map ParsedBillItem.itemName =
      ["Paracetamol 500mg Tablet"] ∧
    c7Item.unitPrice = some 0 ∧
    containsCh (lowerCh c7Item.itemName.toList) "discount".toList = false := by
  refine ⟨?_, ?_, ?_⟩ <;> with_unfolding_all decide

/-- C7 (amended): the Gemini-tier sanitizer rejects every item whose
unitPrice is zero or negative and whose name does not contain
"discount"; the Mindee-tier cleanParsedItems applies no such rule (see
the counterexample), so the filter is not cross-cutting. -/
theorem gemini_rejects_zero_price (item : AIExtractedBillItem)
    (hp : item.unitPrice ≤ 0)
    (hd : containsCh (trimCh (lowerCh item.itemName.toList))
      "discount".toList = false) :
    geminiKeepItem item = false := by
  unfold geminiKeepItem
  dsimp only
  split
  · rfl
  split
  · rfl
  split
  · rfl
  split
  · rfl
  split
  · rfl
  split
  · rfl
  rw [if_pos]
  simp only [Bool.and_eq_true, decide_eq_true_eq, Bool.not_eq_true']
  exact ⟨hp, hd⟩

/-- Witness for C7 at a concrete zero-price item. -/
theorem gemini_rejects_zero_price_witness :
    geminiKeepItem c7wItem = false :=
  gemini_rejects_zero_price c7wItem (by with_unfolding_all decide)
    (by decide)

/-! ## Claim theorems: high-price sanitization (C6) -/

/-- C6 counterexample: on the Gemini tier an item named "Dialysis Session"
priced above 100000 is rejected even though its name contains the
contextual medical keyword dialysis; validateAndFixBill drops it. -/
theorem gemini_high_price_counterexample :
    containsCh (lowerCh c6Item.itemName.toList) "dialysis".toList = true ∧
    (100000 : ℚ) < c6Item.unitPrice ∧
    geminiKeepItem c6Item = false ∧
    (validateAndFixBill "" { items := some [c6RawItem] }).items = [] := by
  refine ⟨?_, ?_, ?_, ?_⟩ <;> with_unfolding_all decide

/-- C6 (amended): the high-price rule is tier-specific. The Gemini tier
rejects every item above 100000 unconditionally; the Mindee tier rejects
an above-100000 item exactly when its name matches no medical keyword or
medicine pattern (an ICU-named one survives); the regex tier rejects a
line with an above-100000 amount exactly when it lacks a contextual
medical keyword (an ICU-named line still parses). -/
theorem sanitizer_high_price_per_tier :
    (∀ item : AIExtractedBillItem, 100000 < item.unitPrice →
        geminiKeepItem item = false) ∧
    (∀ name price total, 100000 < price →
        Mindee.clearlyMedical (trimCh (lowerCh name.toList)) = false →
        Mindee.isGarbageItem name price total = true) ∧
    Mindee.isGarbageItem "ICU Charges" 150000 900000 = false ∧
    (∀ line cat, regexPriceGuardRejects line = true →
        parseLineItem line cat = none) ∧
    (∀ line, hasValidMedicalContext line = true →
        regexPriceGuardRejects line = false) ∧
    (parseLineItem "ICU Charges 150000.00" "Other").isSome = true := by
  refine ⟨?_, ?_, ?_, ?_, ?_, ?_⟩
  · intro item hp
    unfold geminiKeepItem
    dsimp only
    repeat' split
    all_goals rfl
  · intro name price total hp hcm
    unfold Mindee.isGarbageItem
    dsimp only
    split
    · rfl
    split
    · rfl
    split
    · rfl
    rw [if_pos]
    exact ⟨hp, hcm⟩
  · with_unfolding_all decide
  · intro line cat hg
    unfold parseLineItem
    rw [if_pos]
    simp [parseLineRejected, hg]
  · intro line hc
    unfold regexPriceGuardRejects
    simp [hc]
  · with_unfolding_all decide

/-! ## Claim theorems: the regex fallback parser (C8, C9) -/

set_option maxRecDepth 200000 in
/-- C8: on the canned demo transcript the regex parser extracts at least
10 items (in fact 16), a present bill date, and hospital name
"City General Hospital". -/
theorem parseBillText_mock_extraction :
    10 ≤ (parseBillText mockOcrText).items.length ∧
    (parseBillText mockOcrText).billDate.isSome = true ∧
    (parseBillText mockOcrText).hospitalName = some "City General Hospital" := by
  refine ⟨?_, ?_, ?_⟩ <;> with_unfolding_all decide

/-- The item loop adds at most one item per line. -/
lemma parseLineStep_length_le (lines : List (List Char)) :
    ∀ st : String × List ParsedBillItem,
      (lines.foldl parseLineStep st).2.length ≤ st.2.length + lines.length := by
  induction lines with
  | nil => intro st; simp
  | cons l t ih =>
    intro st
    refine le_trans (ih (parseLineStep st l)) ?_
    have hstep : (parseLineStep st l).2.length ≤ st.2.length + 1 := by
      unfold parseLineStep
      dsimp only
      split
      · simp
      · split
        · simp
        · simp
    simp only [List.length_cons]
    omega

/-- C9: parseBillText is a total function — every extraction step
defaults to an absent field instead of failing — its item list is bounded
by the number of input lines, and on a garbage input every field is left
at its absent default with no items. -/
theorem parseBillText_total_on_garbage :
    (∀ s : String,
      (parseBillText s).items.length ≤ (splitLines s).length) ∧
    parseBillText "@@ ##" = {} := by
  constructor
  · intro s
    show ((splitLines s).foldl parseLineStep ("Other", [])).2.length ≤ _
    have h := parseLineStep_length_le (splitLines s) ("Other", [])
    simpa using h
  · with_unfolding_all decide

/-! ## Claim theorems: the analyze cascade error semantics (C3) -/

/-- C3: in the /api/analyze cascade, an adapter outcome of none (internal
exception, unparseable response, unconfigured client) is interchangeable
with an empty item list at every tier — the cascade just moves on — and
the only error outcomes are ocrFailed, exactly when a present file
reaches tier 3 with a failed OCR backend, and notMedicalBill, exactly
when OCR succeeded and the validator rejected, carrying the validator's
confidence; conversely those two conditions do produce exactly those
errors. -/
theorem analyzeCascade_error_semantics :
    (∀ (mA gA : Bool) (r : MindeeParseResult) gv ocr gt,
        analyzeCascade true mA gA (some { r with items := [] }) gv ocr gt =
          analyzeCascade true mA gA none gv ocr gt) ∧
    (∀ (mA gA : Bool) mr (r : AIExtractedBill) ocr gt,
        analyzeCascade true mA gA mr (some { r with items := [] }) ocr gt =
          analyzeCascade true mA gA mr none ocr gt) ∧
    (∀ (mA gA : Bool) mr gv ocr (r : AIExtractedBill),
        analyzeCascade true mA gA mr gv ocr (some { r with items := [] }) =
          analyzeCascade true mA gA mr gv ocr none) ∧
    (∀ (hasFile mA gA : Bool) mr gv ocr gt,
        analyzeCascade hasFile mA gA mr gv ocr gt = .ocrFailed →
          hasFile = true ∧ ocr.success = false) ∧
    (∀ (hasFile mA gA : Bool) mr gv ocr gt c,
        analyzeCascade hasFile mA gA mr gv ocr gt = .notMedicalBill c →
          hasFile = true ∧ ocr.success = true ∧
          (validateMedicalBill ocr.text).isMedicalBill = false ∧
          c = (validateMedicalBill ocr.text).confidence) ∧
    (∀ (mA gA : Bool) ocr gt, ocr.success = false →
        analyzeCascade true mA gA none none ocr gt =
          AnalyzeOutcome.ocrFailed) ∧
    (∀ (mA gA : Bool) ocr gt, ocr.success = true →
        (validateMedicalBill ocr.text).isMedicalBill = false →
        analyzeCascade true mA gA none none ocr gt =
          AnalyzeOutcome.notMedicalBill
            (validateMedicalBill ocr.text).confidence) := by
  refine ⟨?_, ?_, ?_, ?_, ?_, ?_, ?_⟩
  · intro mA gA r gv ocr gt
    rfl
  · intro mA gA mr r ocr gt
    rfl
  · intro mA gA mr gv ocr r
    rfl
  · intro hasFile mA gA mr gv ocr gt h
    unfold analyzeCascade at h
    split at h
    · rename_i hf
      refine ⟨hf, ?_⟩
      dsimp only at h
      split at h
      · cases h
      · split at h
        · cases h
        · split at h
          · simpa using (by assumption : (!ocr.success) = true)
          · split at h
            · cases h
            · split at h
              · cases h
              · cases h
    · cases h
  · intro hasFile mA gA mr gv ocr gt c h
    unfold analyzeCascade at h
    split at h
    · rename_i hf
      refine ⟨hf, ?_⟩
      dsimp only at h
      split at h
      · cases h
      · split at h
        · cases h
        · split at h
          · cases h
          · rename_i hocr
            split at h
            · rename_i hv
              cases h
              refine ⟨by simpa using hocr, by simpa using hv, rfl⟩
            · split at h
              · cases h
              · cases h
    · cases h
  · intro mA gA ocr gt h
    cases mA <;> cases gA <;> simp [analyzeCascade, h]
  · intro mA gA ocr gt h hv
    cases mA <;> cases gA <;> simp [analyzeCascade, h, hv]

end JustBill
